import Mathlib

/-
Verification of the muxable/chord repository (Chord-style DHT) against its
natural-language specification.  The Go source is shallowly embedded: machine
integers (uint64) are modelled as `Nat` with explicit bounds where overflow
matters, Go maps as association lists, and remote (network) calls as oracle
records holding the result each call would return (`none` meaning the call
returned an error).
-/

namespace Chord

/-- Ring-size exponent, `const M = 64` in chord.go. -/
def M : Nat := 64

/-- Successor-list length, `const R = 4` in chord.go. -/
def R : Nat := 4

/-- Embedding of `between` (chord.go lines 19-24):
`if n1 < n3 { return n1 < n2 && n2 <= n3 }; return n1 < n2 || n2 <= n3`. -/
def between (n1 n2 n3 : Nat) : Bool :=
  if n1 < n3 then decide (n1 < n2) && decide (n2 ≤ n3)
  else decide (n1 < n2) || decide (n2 ≤ n3)

/-- Clockwise distance from x to y on the ring of size 2^64 (for x, y < 2^64
this is (y - x) mod 2^64).  Spec-side notion used to state what "the clockwise
arc from a to c" means. -/
def cwDist (x y : Nat) : Nat := (y + 2 ^ 64 - x) % 2 ^ 64

/-- `MemoryStore` (`map[uint64][]byte`) modelled as an association list from
key to byte sequence. -/
def MemoryStore : Type := List (Nat × List Nat)

/-- Map access `s[k]` on the model, as an optional value (capturing key
membership; the Go `Get` additionally maps a missing key to the empty byte
slice). -/
def MemoryStore.lookup : MemoryStore → Nat → Option (List Nat)
  | [], _ => none
  | (k2, v) :: rest, k => if k2 = k then some v else MemoryStore.lookup rest k

/-- Embedding of `MemoryStore.Constrain` (the store draft used by dht.go):
`for k := range s { if !between(a, k, b) { delete(s, k) } }` — i.e. retain
exactly the keys k with `between a k b`. -/
def MemoryStore.Constrain (s : MemoryStore) (a b : Nat) : MemoryStore :=
  s.filter (fun kv => between a kv.1 b)

/-- Embedding of `RemoteNode` (chord.go): a peer handle holding id and host. -/
structure RemoteNode where
  id : Nat
  host : String
deriving DecidableEq, Repr

/-- Go's `fmt.Sprintf("%x", n)` for uint64: lowercase hexadecimal with no
leading zeros (and "0" for zero). -/
def goHex (n : Nat) : String := String.mk (Nat.toDigits 16 n)

/-- Embedding of `RemoteNode.Serialize`: `fmt.Sprintf("%x:%s", n.id, n.host)`. -/
def RemoteNode.Serialize (n : RemoteNode) : String :=
  goHex n.id ++ ":" ++ n.host

/-- Value of a hexadecimal digit character, upper or lower case (as accepted
by Go's `strconv.ParseUint(s, 16, 64)`). -/
def hexDigitVal (c : Char) : Option Nat :=
  if '0' ≤ c ∧ c ≤ '9' then some (c.toNat - '0'.toNat)
  else if 'a' ≤ c ∧ c ≤ 'f' then some (c.toNat - 'a'.toNat + 10)
  else if 'A' ≤ c ∧ c ≤ 'F' then some (c.toNat - 'A'.toNat + 10)
  else none

/-- Embedding of `strconv.ParseUint(s, 16, 64)`: `none` models a parse error
(empty string, non-hex character, or overflow past 2^64 - 1). -/
def parseHexU64 (s : String) : Option Nat :=
  if s.isEmpty then none
  else
    (s.data.foldl
        (fun acc c => acc.bind fun v => (hexDigitVal c).map fun d => 16 * v + d)
        (some 0)).bind
      fun v => if v < 2 ^ 64 then some v else none

/-- Embedding of `strings.SplitN(s, ":", 2)`: the text before the first colon,
and (when a colon exists) everything after it. -/
def splitFirstColon (s : String) : String × Option String :=
  match s.splitOn ":" with
  | [] => (s, none)
  | [p] => (p, none)
  | p :: rest => (p, some (String.intercalate ":" rest))

/-- Embedding of `RemoteNode.Deserialize` called on receiver `n`: a string
shorter than 16 characters is ignored (the receiver is returned unchanged with
no error); otherwise the part before the first colon is parsed as hex and the
rest becomes the host.  `none` models failure (a parse error, or the
out-of-range index Go would hit when the string has no colon). -/
def RemoteNode.Deserialize (n : RemoteNode) (s : String) : Option RemoteNode :=
  if s.length < 16 then some n
  else
    match parseHexU64 (splitFirstColon s).1 with
    | none => none
    | some idv =>
      match (splitFirstColon s).2 with
      | none => none
      | some h => some { id := idv, host := h }

/-- The zero value `&RemoteNode{}` that every call site of `Deserialize`
starts from. -/
def zeroRemote : RemoteNode := { id := 0, host := "" }

/-- A `Node` interface value held in a field: either a pointer to the local
node (`*LocalNode`) or a remote peer handle (`*RemoteNode`), identified by its
id.  Hosts play no role in the ring logic and are omitted here. -/
inductive Peer where
  | localP : Nat → Peer
  | remoteP : Nat → Peer
deriving DecidableEq, Repr

/-- The id reported by `Peer.ID()`. -/
def Peer.pid : Peer → Nat
  | .localP i => i
  | .remoteP i => i

/-- Embedding of `LocalNode` (chord.go): finger table and successor list are
modelled as functions from index to the id of the referenced node (indices
below M, resp. R, are the meaningful ones); the predecessor keeps its
local/remote tag because `Notify` branches on it. -/
structure LocalNode where
  id : Nat
  host : String
  finger : Nat → Nat
  successors : Nat → Nat
  predecessor : Option Peer

/-- The scan of `ClosestPrecedingNode` (chord.go lines 103-110): the argument
counts the indices still to inspect, so `cpnAux selfId k finger (i + 1)` first
checks finger index i and then descends. -/
def cpnAux (selfId k : Nat) (finger : Nat → Nat) : Nat → Nat
  | 0 => selfId
  | i + 1 => if between selfId (finger i) k then finger i else cpnAux selfId k finger i

/-- Embedding of `LocalNode.ClosestPrecedingNode`: scan the finger table from
index M-1 down to 0 and return the first finger whose id is `between` self.id
and k; if none, return self. -/
def LocalNode.ClosestPrecedingNode (n : LocalNode) (k : Nat) : Nat :=
  cpnAux n.id k n.finger M

/-- Embedding of `LocalNode.FindSuccessor`, fuelled.  The world maps a node id
to that node's state (`none` models an unreachable peer); delegation to
`ClosestPrecedingNode(id).FindSuccessor(id)` dispatches through the world, and
exhausted fuel (`none`) models non-termination of the recursion. -/
def FindSuccessor (w : Nat → Option LocalNode) : Nat → Nat → Nat → Option Nat
  | 0, _, _ => none
  | fuel + 1, selfId, k =>
    match w selfId with
    | none => none
    | some n =>
      if between n.id k (n.successors 0) then some (n.successors 0)
      else FindSuccessor w fuel (n.ClosestPrecedingNode k) k

/-- A concrete node whose fingers all point at id 5, used as input for the
`ClosestPrecedingNode` theorems. -/
def fingerFiveNode : LocalNode :=
  { id := 0, host := "", finger := fun _ => 5, successors := fun _ => 0,
    predecessor := none }

/-- A concrete single-node ring member (all references to itself). -/
def soloNode : LocalNode :=
  { id := 3, host := "h", finger := fun _ => 3, successors := fun _ => 3,
    predecessor := some (Peer.localP 3) }

/-- Embedding of `LocalNode.Notify` (chord.go lines 137-151).  The Go type
switch merges `case nil, *LocalNode` (adopt m when the predecessor is nil or
`between` holds) and handles `case *RemoteNode` by probing the predecessor
first: m is adopted only when the probe returns without error AND `between`
holds.  `probeOk` is the oracle for that probe.  The result bundles the new
state, the argument handed to the `onPredecessor` callback fired at the end
(`go n.onPredecessor(n.predecessor)`), and the returned error flag (always
false: the function ends in `return nil`). -/
def LocalNode.Notify (n : LocalNode) (m : Peer) (probeOk : Bool) :
    LocalNode × Option Peer × Bool :=
  let n1 :=
    match n.predecessor with
    | none => { n with predecessor := some m }
    | some (Peer.localP p) =>
      if between p m.pid n.id then { n with predecessor := some m } else n
    | some (Peer.remoteP p) =>
      if probeOk && between p m.pid n.id then { n with predecessor := some m }
      else n
  (n1, n1.predecessor, false)

/-- Results of the remote calls one run of `Stabilize` can make, in call
order; `none` models a call that returned an error. -/
structure StabilizeCalls where
  predOfSucc : Option Nat
  succsOfSucc : Option (Nat → Nat)
  succsOfX : Option (Nat → Nat)
  notifyOk : Bool

/-- Embedding of `LocalNode.Stabilize` (chord.go lines 112-135), returning the
(possibly partially) mutated node and whether an error was returned.  Note the
source copies `y[:R-1]` into `successors[1:]` before the `between` check, so
an error on the later `x.Successors()` call (or on the final `Notify`) leaves
that copy behind. -/
def LocalNode.Stabilize (n : LocalNode) (o : StabilizeCalls) :
    LocalNode × Bool :=
  match o.predOfSucc with
  | none => (n, true)
  | some x =>
    match o.succsOfSucc with
    | none => (n, true)
    | some y =>
      let n1 : LocalNode :=
        { n with successors := fun i => if i = 0 then n.successors 0 else y (i - 1) }
      if between n1.id x (n1.successors 0) then
        match o.succsOfX with
        | none => (n1, true)
        | some z =>
          let n2 : LocalNode :=
            { n1 with successors := fun i => if i = 0 then x else z (i - 1) }
          (n2, !o.notifyOk)
      else (n1, !o.notifyOk)

/-- The left shift the maintenance loop applies on a stabilization error
(chord.go lines 239-243): `for i := 0; i < R-1; i++ { successors[i] =
successors[i+1] }` — the last slot keeps its entry. -/
def shiftSuccessors (s : Nat → Nat) : Nat → Nat :=
  fun i => if i < R - 1 then s (i + 1) else s i

/-- One stabilize tick of the `Join` maintenance loop: run `Stabilize`; if it
returned an error, shift the successor list left by one. -/
def LocalNode.StabilizeTick (n : LocalNode) (o : StabilizeCalls) : LocalNode :=
  let r := n.Stabilize o
  if r.2 then { r.1 with successors := shiftSuccessors r.1.successors } else r.1

/-- Results of the remote calls `NewLocalNode` makes when given a bootstrap
peer m: `m.FindSuccessor(n.id)` and then `s.Successors()`; `none` models an
error, which aborts construction. -/
structure JoinCalls where
  findSucc : Option Nat
  succsOfS : Option (Nat → Nat)

/-- Embedding of `NewLocalNode` (chord.go lines 47-72): fingers and successor
slots start at self; with no bootstrap peer the predecessor is set to self
(a `*LocalNode` reference); with one, `successors[0]` becomes the bootstrap
lookup result, slots 1..R-1 take the first R-1 entries of that successor's
list, and the predecessor is left absent (the Go zero value). -/
def NewLocalNode (idv : Nat) (host : String) (boot : Option JoinCalls) :
    Option LocalNode :=
  let base : LocalNode :=
    { id := idv, host := host, finger := fun _ => idv,
      successors := fun _ => idv, predecessor := none }
  match boot with
  | none => some { base with predecessor := some (Peer.localP idv) }
  | some o =>
    match o.findSucc with
    | none => none
    | some s =>
      match o.succsOfS with
      | none => none
      | some t =>
        some { base with successors := fun i => if i = 0 then s else t (i - 1) }

/-- A concrete node for the stabilization theorems: id 1, successor list
10, 11, 12, 13. -/
def stabNode : LocalNode :=
  { id := 1, host := "", finger := fun _ => 1, successors := fun i => 10 + i,
    predecessor := none }

/-- A call record for `Stabilize` whose error arises on the third remote call
(`x.Successors()`), after `successors[1:]` was already overwritten with
20, 21, 22. -/
def stabCallsLateError : StabilizeCalls :=
  { predOfSucc := some 5, succsOfSucc := some (fun i => 20 + i),
    succsOfX := none, notifyOk := true }

/-- A call record for `Stabilize` whose error arises on the first remote call
(`successors[0].Predecessor()`), before any mutation. -/
def stabCallsEarlyError : StabilizeCalls :=
  { predOfSucc := none, succsOfSucc := none, succsOfX := none,
    notifyOk := true }

/-- A concrete node with a remote predecessor (id 5) for the `Notify`
counterexample. -/
def remotePredNode : LocalNode :=
  { id := 10, host := "", finger := fun _ => 10, successors := fun _ => 10,
    predecessor := some (Peer.remoteP 5) }

/-- A concrete node with no predecessor for the `Notify` witness. -/
def noPredNode : LocalNode :=
  { id := 10, host := "", finger := fun _ => 10, successors := fun _ => 10,
    predecessor := none }

end Chord

namespace Chord

theorem between_eq_true_iff (n1 n2 n3 : Nat) :
    between n1 n2 n3 = true ↔
      (if n1 < n3 then n1 < n2 ∧ n2 ≤ n3 else n1 < n2 ∨ n2 ≤ n3) := by
  unfold between
  split_ifs <;> simp

theorem between_right_self (a b : Nat) : between a b a = true := by
  rw [between_eq_true_iff]
  rw [if_neg (lt_irrefl a)]
  omega

/-- C9: the arc predicate partitions the ring: for a ≠ c and b distinct from
both endpoints, exactly one of `between a b c` and `between c b a` holds. -/
theorem between_exactly_one (a b c : Nat) (hac : a ≠ c) (hba : b ≠ a)
    (hbc : b ≠ c) :
    (between a b c = true ∧ between c b a = false) ∨
    (between a b c = false ∧ between c b a = true) := by
  cases hb1 : between a b c with
  | false =>
    right
    refine ⟨rfl, ?_⟩
    cases hb2 : between c b a with
    | false =>
      exfalso
      have hn1 : ¬ (if a < c then a < b ∧ b ≤ c else a < b ∨ b ≤ c) := by
        rw [← between_eq_true_iff]
        simp [hb1]
      have hn2 : ¬ (if c < a then c < b ∧ b ≤ a else c < b ∨ b ≤ a) := by
        rw [← between_eq_true_iff]
        simp [hb2]
      split_ifs at hn1 hn2 <;> omega
    | true => rfl
  | true =>
    left
    refine ⟨rfl, ?_⟩
    cases hb2 : between c b a with
    | false => rfl
    | true =>
      exfalso
      have hp1 := (between_eq_true_iff a b c).mp hb1
      have hp2 := (between_eq_true_iff c b a).mp hb2
      split_ifs at hp1 hp2 <;> omega

/-- Witness for `between_exactly_one` at a = 1, b = 2, c = 3. -/
theorem between_exactly_one_witness :
    (between 1 2 3 = true ∧ between 3 2 1 = false) ∨
    (between 1 2 3 = false ∧ between 3 2 1 = true) :=
  between_exactly_one 1 2 3 (by decide) (by decide) (by decide)

/-- C1 counterexample: the claim states that in the degenerate case a = c the
predicate excludes b = a, i.e. that `between a a a = false`; but the code
returns `true` there (the else-branch `n1 < n2 || n2 <= n3` is satisfied by
`n2 <= n3` when all three are equal). -/
theorem between_degenerate_includes_endpoint : between 0 0 0 = true := by decide

/-- C1 (amended): for a ≠ c, `between a b c` holds exactly when b lies on the
clockwise arc from a (exclusive) to c (inclusive), measured by clockwise
distance; in the degenerate case a = c it holds for every b, including b = a;
and the wraparound instance from the spec holds. -/
theorem between_arc_characterization :
    (∀ a b c : Nat, a < 2 ^ 64 → b < 2 ^ 64 → c < 2 ^ 64 → a ≠ c →
      (between a b c = true ↔ (0 < cwDist a b ∧ cwDist a b ≤ cwDist a c))) ∧
    (∀ a b : Nat, between a b a = true) ∧
    between 0xFFFFFFFFFFFFFF00 0x0000000000000010 0x0000000000000100 = true := by
  refine ⟨?_, between_right_self, by decide⟩
  intro a b c ha hb hc hac
  rw [between_eq_true_iff]
  unfold cwDist
  have h64 : (2 : Nat) ^ 64 = 18446744073709551616 := by norm_num
  rw [h64] at ha hb hc ⊢
  split_ifs <;> omega

/-- Witness for `between_arc_characterization` at a = 1, b = 2, c = 3. -/
theorem between_arc_characterization_witness :
    0 < cwDist 1 2 ∧ cwDist 1 2 ≤ cwDist 1 3 :=
  (between_arc_characterization.1 1 2 3 (by norm_num) (by norm_num) (by norm_num)
    (by norm_num)).mp (by decide)

/-- C2: after `Constrain a b` the store contains exactly the previously-present
keys k with `between a k b`, with their values unchanged; every other key is
deleted and no key is added. -/
theorem Constrain_retains_exactly_between (s : MemoryStore) (a b k : Nat) :
    (s.Constrain a b).lookup k =
      if between a k b then s.lookup k else none := by
  induction s with
  | nil =>
    unfold MemoryStore.Constrain
    simp only [List.filter_nil]
    cases between a k b <;> simp [MemoryStore.lookup]
  | cons hd tl ih =>
    unfold MemoryStore.Constrain at ih ⊢
    by_cases hkeep : between a hd.1 b = true
    · simp only [List.filter_cons, hkeep, if_true]
      by_cases hk : hd.1 = k
      · subst hk
        simp [MemoryStore.lookup, hkeep]
      · simp only [MemoryStore.lookup, if_neg hk]
        exact ih
    · simp only [List.filter_cons, if_neg hkeep]
      by_cases hk : hd.1 = k
      · subst hk
        rw [ih]
        rw [Bool.not_eq_true] at hkeep
        simp [MemoryStore.lookup, hkeep]
      · rw [ih]
        simp only [MemoryStore.lookup, if_neg hk]

theorem cpnAux_between (selfId k : Nat) (finger : Nat → Nat) (i : Nat)
    (h : cpnAux selfId k finger i ≠ selfId) :
    between selfId (cpnAux selfId k finger i) k = true := by
  induction i with
  | zero => exact absurd rfl h
  | succ i ih =>
    unfold cpnAux at h ⊢
    by_cases hb : between selfId (finger i) k = true
    · rw [if_pos hb]
      exact hb
    · rw [if_neg hb] at h ⊢
      exact ih h

/-- C5 counterexample: on the node with id 0 whose fingers all hold id 5, the
lookup key k = 5 makes `ClosestPrecedingNode` return a node other than self
whose id equals k itself — because `between` is right-inclusive — so the
returned id is not strictly before k on the ring as the claim states. -/
theorem ClosestPrecedingNode_not_strict :
    fingerFiveNode.ClosestPrecedingNode 5 ≠ fingerFiveNode.id ∧
    fingerFiveNode.ClosestPrecedingNode 5 = 5 := by decide

/-- C5 (amended): if `ClosestPrecedingNode k` returns a node other than self,
that node's id satisfies `between self.id · k` — strictly clockwise after
self.id and at or before k (k itself included). -/
theorem ClosestPrecedingNode_progress (n : LocalNode) (k : Nat)
    (h : n.ClosestPrecedingNode k ≠ n.id) :
    between n.id (n.ClosestPrecedingNode k) k = true :=
  cpnAux_between n.id k n.finger M h

/-- Witness for `ClosestPrecedingNode_progress` on `fingerFiveNode` with
k = 10. -/
theorem ClosestPrecedingNode_progress_witness :
    fingerFiveNode.ClosestPrecedingNode 10 ≠ fingerFiveNode.id ∧
    between fingerFiveNode.id (fingerFiveNode.ClosestPrecedingNode 10) 10 = true :=
  ⟨by decide, ClosestPrecedingNode_progress fingerFiveNode 10 (by decide)⟩

/-- C4: on a single-node ring (every successor-list entry, every finger, and
the predecessor refer to self), `FindSuccessor k` terminates — one unit of
fuel suffices — and returns self, for every key k in the identifier space. -/
theorem FindSuccessor_single_node (n : LocalNode) (k fuel : Nat)
    (hs : ∀ i, i < R → n.successors i = n.id)
    (_hf : ∀ i, i < M → n.finger i = n.id)
    (_hp : n.predecessor = some (Peer.localP n.id))
    (hfuel : 1 ≤ fuel) (_hk : k < 2 ^ 64) :
    FindSuccessor (fun j => if j = n.id then some n else none) fuel n.id k =
      some n.id := by
  obtain ⟨m, rfl⟩ : ∃ m, fuel = m + 1 := ⟨fuel - 1, by omega⟩
  have h0 : n.successors 0 = n.id := hs 0 (by norm_num [R])
  have hb : between n.id k n.id = true := between_right_self n.id k
  simp [FindSuccessor, h0, hb]

/-- Witness for `FindSuccessor_single_node` on `soloNode` with key 5 and
fuel 1. -/
theorem FindSuccessor_single_node_witness :
    FindSuccessor (fun j => if j = soloNode.id then some soloNode else none) 1
      soloNode.id 5 = some soloNode.id :=
  FindSuccessor_single_node soloNode 5 1 (fun _ _ => rfl) (fun _ _ => rfl) rfl
    (by norm_num) (by norm_num)

/-- C6 counterexample: node 10 has the remote predecessor 5 and is notified by
node 7 with `between 5 7 10` true, but the probe of the predecessor fails; the
claim permits rejection only when the probe succeeds and contradicts the
claimant, yet the code keeps the old predecessor. -/
theorem Notify_remote_probe_failure_rejects :
    between 5 7 10 = true ∧
    ((remotePredNode.Notify (Peer.remoteP 7) false).1).predecessor =
      some (Peer.remoteP 5) := by decide

/-- C6 (amended): on `Notify m`: an absent predecessor is replaced by m; when
`between predecessor.id m.id self.id` fails the predecessor is unchanged; when
it holds, m is adopted if the predecessor is local, and if it is remote m is
adopted exactly when the probe of that predecessor succeeds — a failed probe
rejects m and leaves the predecessor unchanged. -/
theorem Notify_predecessor_update (n : LocalNode) (m : Peer) (pr : Bool) :
    (n.predecessor = none → ((n.Notify m pr).1).predecessor = some m) ∧
    (∀ p, n.predecessor = some p → between p.pid m.pid n.id = false →
      ((n.Notify m pr).1).predecessor = some p) ∧
    (∀ p, n.predecessor = some (Peer.localP p) → between p m.pid n.id = true →
      ((n.Notify m pr).1).predecessor = some m) ∧
    (∀ p, n.predecessor = some (Peer.remoteP p) → pr = true →
      between p m.pid n.id = true → ((n.Notify m pr).1).predecessor = some m) ∧
    (∀ p, n.predecessor = some (Peer.remoteP p) → pr = false →
      ((n.Notify m pr).1).predecessor = some (Peer.remoteP p)) := by
  refine ⟨?_, ?_, ?_, ?_, ?_⟩
  · intro h
    simp [LocalNode.Notify, h]
  · intro p hp hb
    cases p with
    | localP q =>
      have hb2 : between q m.pid n.id = false := hb
      simp [LocalNode.Notify, hp, hb2]
    | remoteP q =>
      have hb2 : between q m.pid n.id = false := hb
      simp [LocalNode.Notify, hp, hb2]
  · intro p hp hb
    simp [LocalNode.Notify, hp, hb]
  · intro p hp hpr hb
    simp [LocalNode.Notify, hp, hpr, hb]
  · intro p hp hpr
    simp [LocalNode.Notify, hp, hpr]

/-- Witness for `Notify_predecessor_update`: a node with an absent predecessor
adopts the notifier. -/
theorem Notify_predecessor_update_witness :
    ((noPredNode.Notify (Peer.localP 2) true).1).predecessor =
      some (Peer.localP 2) :=
  (Notify_predecessor_update noPredNode (Peer.localP 2) true).1 rfl

/-- C10: every call to `Notify` hands the (post-update) predecessor to the
`onPredecessor` callback — also when the notification was ignored — that
predecessor is never absent at that point, and `Notify` returns without
error. -/
theorem Notify_fires_callback_no_error (n : LocalNode) (m : Peer) (pr : Bool) :
    (n.Notify m pr).2.1 = ((n.Notify m pr).1).predecessor ∧
    ((n.Notify m pr).1).predecessor.isSome = true ∧
    (n.Notify m pr).2.2 = false := by
  refine ⟨rfl, ?_, rfl⟩
  cases hp : n.predecessor with
  | none => simp [LocalNode.Notify, hp]
  | some p =>
    cases p with
    | localP q =>
      cases hb : between q m.pid n.id <;> simp [LocalNode.Notify, hp, hb]
    | remoteP q =>
      cases hb : (pr && between q m.pid n.id) <;> simp [LocalNode.Notify, hp, hb]

/-- C7 counterexample: `Stabilize` fails on its third remote call
(`x.Successors()`) after having already overwritten `successors[1:]` with the
successor's list 20, 21, 22; the subsequent shift then promotes 20 into slot
0, not the previous entry 11 that the claim predicts, so the combined effect
is not a pure left shift of the prior successor list. -/
theorem StabilizeTick_late_error_not_plain_shift :
    (stabNode.Stabilize stabCallsLateError).2 = true ∧
    (stabNode.StabilizeTick stabCallsLateError).successors 0 = 20 ∧
    stabNode.successors 1 = 11 ∧
    (stabNode.StabilizeTick stabCallsLateError).successors 0 ≠
      stabNode.successors 1 := by decide

/-- C7 (amended): whenever `Stabilize` returns an error the loop shifts the
successor list *as Stabilize left it* one slot left, keeping the last entry;
when the error arises on the first remote call (`successors[0].Predecessor()`)
Stabilize has not yet mutated anything, so the net effect is exactly the
claimed shift of the previous list and no other node state changes. -/
theorem StabilizeTick_error_shift (n : LocalNode) (o : StabilizeCalls) :
    ((n.Stabilize o).2 = true →
      (∀ i, i < R - 1 →
        (n.StabilizeTick o).successors i = (n.Stabilize o).1.successors (i + 1)) ∧
      (n.StabilizeTick o).successors (R - 1) =
        (n.Stabilize o).1.successors (R - 1)) ∧
    (o.predOfSucc = none →
      (n.Stabilize o).2 = true ∧
      (∀ i, i < R - 1 → (n.StabilizeTick o).successors i = n.successors (i + 1)) ∧
      (n.StabilizeTick o).successors (R - 1) = n.successors (R - 1) ∧
      (n.StabilizeTick o).id = n.id ∧ (n.StabilizeTick o).host = n.host ∧
      (n.StabilizeTick o).finger = n.finger ∧
      (n.StabilizeTick o).predecessor = n.predecessor) := by
  constructor
  · intro herr
    constructor
    · intro i hi
      simp only [LocalNode.StabilizeTick, herr, if_true, shiftSuccessors]
      rw [if_pos hi]
    · simp only [LocalNode.StabilizeTick, herr, if_true, shiftSuccessors]
      rw [if_neg (lt_irrefl (R - 1))]
  · intro hearly
    have hst : n.Stabilize o = (n, true) := by
      unfold LocalNode.Stabilize
      rw [hearly]
    have htick : n.StabilizeTick o =
        { n with successors := shiftSuccessors n.successors } := by
      simp only [LocalNode.StabilizeTick, hst, if_true]
    refine ⟨by rw [hst], ?_, ?_, by rw [htick], by rw [htick], by rw [htick],
      by rw [htick]⟩
    · intro i hi
      rw [htick]
      show shiftSuccessors n.successors i = n.successors (i + 1)
      unfold shiftSuccessors
      rw [if_pos hi]
    · rw [htick]
      show shiftSuccessors n.successors (R - 1) = n.successors (R - 1)
      unfold shiftSuccessors
      rw [if_neg (lt_irrefl (R - 1))]

/-- Witness for `StabilizeTick_error_shift` on `stabNode` when the first
remote call errors: slot 0 takes the old slot 1 and the predecessor is
untouched. -/
theorem StabilizeTick_error_shift_witness :
    (stabNode.StabilizeTick stabCallsEarlyError).successors 0 =
      stabNode.successors 1 ∧
    (stabNode.StabilizeTick stabCallsEarlyError).predecessor =
      stabNode.predecessor := by
  have h := (StabilizeTick_error_shift stabNode stabCallsEarlyError).2 rfl
  exact ⟨h.2.1 0 (by decide), h.2.2.2.2.2.2⟩

/-- C8: `NewLocalNode` establishes the claimed initial state: with no
bootstrap peer every finger and every successor slot refer to self and the
predecessor is self; with a bootstrap peer whose lookups succeed, slot 0 holds
the bootstrap lookup result, slots 1..R-1 hold the first R-1 entries of that
successor's list, fingers refer to self, and the predecessor is absent. -/
theorem NewLocalNode_initial_state (idv : Nat) (host : String) (s : Nat)
    (t : Nat → Nat) :
    (∃ nd, NewLocalNode idv host none = some nd ∧
      (∀ i, i < M → nd.finger i = idv) ∧
      (∀ i, i < R → nd.successors i = idv) ∧
      nd.predecessor = some (Peer.localP idv)) ∧
    (∃ nd,
      NewLocalNode idv host (some { findSucc := some s, succsOfS := some t }) =
        some nd ∧
      nd.successors 0 = s ∧
      (∀ i, 0 < i → i < R → nd.successors i = t (i - 1)) ∧
      (∀ i, i < M → nd.finger i = idv) ∧
      nd.predecessor = none) := by
  constructor
  · exact ⟨_, rfl, fun _ _ => rfl, fun _ _ => rfl, rfl⟩
  · refine ⟨_, rfl, rfl, ?_, fun _ _ => rfl, rfl⟩
    intro i hi _
    show (if i = 0 then s else t (i - 1)) = t (i - 1)
    rw [if_neg (by omega)]

/-- Witness for `NewLocalNode_initial_state`: both construction paths succeed
at a concrete input. -/
theorem NewLocalNode_initial_state_witness :
    (NewLocalNode 7 "h" none).isSome = true ∧
    (NewLocalNode 7 "h"
      (some { findSucc := some 9, succsOfS := some (fun _ => 20) })).isSome =
      true := by
  constructor
  · obtain ⟨nd, h1, -, -, -⟩ := (NewLocalNode_initial_state 7 "h" 9 (fun _ => 20)).1
    rw [h1]
    rfl
  · obtain ⟨nd, h1, -, -, -, -⟩ :=
      (NewLocalNode_initial_state 7 "h" 9 (fun _ => 20)).2
    rw [h1]
    rfl

/-- C3: the round-trip law fails in the code.  `Serialize` uses `%x`, which
does not zero-pad, so the peer with id 1 and host "x" serializes to "1:x"
(3 characters); `Deserialize` treats any string shorter than 16 characters as
absent and leaves its zero receiver unchanged, so the round trip yields the
zero peer, not the original. -/
theorem Serialize_roundtrip_failure :
    RemoteNode.Serialize { id := 1, host := "x" } = "1:x" ∧
    zeroRemote.Deserialize (RemoteNode.Serialize { id := 1, host := "x" }) =
      some zeroRemote ∧
    zeroRemote ≠ ({ id := 1, host := "x" } : RemoteNode) := by
  refine ⟨by decide, by decide, by decide⟩

end Chord
